import Mathlib

/-!
# Verification of the netmon broadcast/coordination core

Shallow embedding of the Go sources of pgrahamdev/netmon:
* src/messages/messages.go : the PerfJSON record and the Result envelope;
* src/netmon.go : getSpeedTestInfo (measurement runner), sendWebSocketData
  (broadcast fan-out), speedtestHandler (request pipeline), WsHandler
  (session handler), NewHandlerContext (trigger channel).

Modelling conventions:
* Go float64 fields are modelled as rationals; performance records only ever
  enter the system by decoding a JSON document, and JSON numbers carry no
  NaN or infinity, so Go json.Marshal of such a record cannot fail.  Where
  the pipeline nonetheless branches on a marshal error (speedtestHandler,
  line 199-203), the marshaller is a parameter of type PerfJSON → Option
  String so that the failing branch stays statable.
* The external process world of getSpeedTestInfo (pipe creation, start,
  decode, wait) is an explicit ExecEnv record of outcomes; the decoder
  outcome DecOutcome.eof models json.Decoder.Decode returning io.EOF on
  empty output.
* A websocket connection is an opaque identifier (a natural number); the Go
  map from connection to liveness flag is an association list with distinct
  keys (Go maps have unique keys); map iteration order is fixed as list
  order, and every property proved about a pass is independent of that
  order.
* Write failures during a broadcast are a parameter writeOk : Conn → Bool
  (whether conn.WriteJSON succeeds for that connection during that pass).
* One iteration of the speedtestHandler loop is the function speedtestStep;
  it returns the new state plus, as instrumentation, the per-connection
  deliveries and the list of notifications handed to the fan-out, in
  program order.
-/

namespace Netmon

/-- Server block of PerfJSON (messages/messages.go lines 78-92). -/
structure ServerInfo where
  id : String
  sponsor : String
  location : String
  country : String
  cc : String
  url : String
  host : String
  lon : String
  lat : String
  distance : Rat
  latency : Rat
  share : String
deriving DecidableEq, Repr

/-- PerfJSON (messages/messages.go lines 78-99): one completed measurement. -/
structure PerfJSON where
  server : ServerInfo
  bytesSent : Rat
  bytesReceived : Rat
  upload : Rat
  download : Rat
  timestamp : String
  ping : Rat
deriving DecidableEq, Repr

/-- messages.StatusType (messages/messages.go line 115). -/
def StatusType : String := "status"

/-- messages.ResultType (messages/messages.go line 118). -/
def ResultType : String := "result"

/-- messages.InitType (messages/messages.go line 121). -/
def InitType : String := "init"

/-- messages.Result (messages/messages.go lines 126-129): the notification
envelope sent to clients. -/
structure Result where
  type : String
  data : String
deriving DecidableEq, Repr

/-- Decimal digit accumulator modelling strconv.Itoa's digit loop; the fuel
argument makes the recursion structural and is always sufficient (n+1 steps
for input n). -/
def natDigitsAux : Nat → Nat → List Char → List Char
  | 0, _, acc => acc
  | fuel + 1, n, acc =>
    if n / 10 = 0 then Nat.digitChar (n % 10) :: acc
    else natDigitsAux fuel (n / 10) (Nat.digitChar (n % 10) :: acc)

/-- Decimal rendering of a natural number (model of strconv.Itoa on
non-negative input). -/
def itoaNat (n : Nat) : String :=
  (natDigitsAux (n + 1) n []).asString

/-- Model of strconv.Itoa (netmon.go line 43). -/
def itoa (i : Int) : String :=
  if i < 0 then "-" ++ itoaNat i.natAbs else itoaNat i.natAbs

/-- Errors of the measurement runner.  GetSpeedError (netmon.go lines 24-31)
is the runner's own error type, distinct from every other Go error value
(pipe, start, decode, wait errors), which are collected as goErr. -/
inductive NetErr where
  | goErr (msg : String)
  | getSpeedError (msg : String)
deriving DecidableEq, Repr

/-- Outcome of json.Decoder.Decode on the child's standard output
(netmon.go line 63): io.EOF when the output is empty, a decode error when
output is present but does not parse, or a decoded record. -/
inductive DecOutcome where
  | eof
  | fail (msg : String)
  | ok (perf : PerfJSON)
deriving DecidableEq, Repr

/-- Outcomes of the external-process steps of getSpeedTestInfo: StdoutPipe
(line 55), Start (line 60), Decode (line 63), Wait (line 68). -/
structure ExecEnv where
  pipeErr : Option String
  startErr : Option String
  dec : DecOutcome
  waitErr : Option String
deriving DecidableEq, Repr

/-- serverID computed by getSpeedTestInfo (netmon.go lines 41-46). -/
def speedtestServerID (server : Int) : String :=
  if server > -1 then itoa server else ""

/-- Argument vector of the child process built by getSpeedTestInfo
(netmon.go lines 50-54). -/
def speedtestArgv (server : Int) : List String :=
  if speedtestServerID server ≠ "" then
    ["speedtest-cli", "--json", "--server", speedtestServerID server]
  else
    ["speedtest-cli", "--json"]

/-- getSpeedTestInfo (netmon.go lines 40-73): run the external tool and
decode one record; an empty output (decoder hits EOF) yields the dedicated
GetSpeedError, any other failure propagates the underlying error. -/
def getSpeedTestInfo (env : ExecEnv) (server : Int) : Except NetErr PerfJSON :=
  match env.pipeErr with
  | some e => .error (.goErr e)
  | none =>
    match env.startErr with
    | some e => .error (.goErr e)
    | none =>
      match env.dec with
      | .eof => .error (.getSpeedError "No output provided from test.")
      | .fail e => .error (.goErr e)
      | .ok perf =>
        match env.waitErr with
        | some e => .error (.goErr e)
        | none => .ok perf

/-- A websocket connection handle (opaque identity). -/
abbrev Conn := Nat

/-- sendWebSocketData (netmon.go lines 156-173): iterate over the
connection map; a dead entry (liveness false) is closed and deleted; a live
entry is written to, and on write failure closed and deleted.  Returns the
map after the pass, the list of (connection, message) deliveries made, and
the list of connections evicted during the pass. -/
def sendWebSocketData (writeOk : Conn → Bool) (msg : Result) :
    List (Conn × Bool) → List (Conn × Bool) × List (Conn × Result) × List Conn
  | [] => ([], [], [])
  | (c, alive) :: rest =>
    let r := sendWebSocketData writeOk msg rest
    if alive then
      if writeOk c then ((c, true) :: r.1, (c, msg) :: r.2.1, r.2.2)
      else (r.1, r.2.1, c :: r.2.2)
    else (r.1, r.2.1, c :: r.2.2)

/-- JSON array encoding of a list of records, given an encoding enc of one
record: the payload a client decodes as exactly that sequence. -/
def encArray (enc : PerfJSON → String) (l : List PerfJSON) : String :=
  "[" ++ String.intercalate "," (l.map enc) ++ "]"

/-- Go json.Marshal of a []PerfJSON slice: a nil slice (the only way
ctx.perfs is empty, since it only ever grows by append) marshals to null,
a non-empty slice to the JSON array. -/
def goMarshalSlice (enc : PerfJSON → String) (l : List PerfJSON) : String :=
  if l.isEmpty then "null" else encArray enc l

/-- The init payload computed by WsHandler (netmon.go lines 111-124): the
marshalled history when non-empty, the literal empty array otherwise. -/
def initPayload (enc : PerfJSON → String) (perfs : List PerfJSON) : String :=
  if perfs.length > 0 then goMarshalSlice enc perfs else "[]"

/-- The init notification WsHandler sends on connect (netmon.go lines
111-134), with the slice marshaller as a fallible parameter: none models the
json.Marshal error branch (line 117-120), on which the handler returns
without sending anything. -/
def wsConnectOpt (marshalList : List PerfJSON → Option String)
    (perfs : List PerfJSON) : Option Result :=
  if perfs.length > 0 then
    match marshalList perfs with
    | none => none
    | some s => some ⟨InitType, s⟩
  else some ⟨InitType, "[]"⟩

/-- The full sequence of notifications a session handler itself writes to
its client: the init on connect and nothing afterwards (the read loop,
netmon.go lines 137-149, only reads). -/
def wsHandlerSends (marshalList : List PerfJSON → Option String)
    (perfs : List PerfJSON) : List Result :=
  match wsConnectOpt marshalList perfs with
  | none => []
  | some r => [r]

/-- The status notification broadcast on receiving a trigger
(netmon.go line 187). -/
def statusReqMsg : Result := ⟨StatusType, "Request made. Waiting for response."⟩

/-- The status notification broadcast on measurement failure
(netmon.go line 193). -/
def statusErrMsg : Result := ⟨StatusType, "Error executing SpeedTest."⟩

/-- State threaded through the speedtestHandler loop: the shared connection
map and the history slice. -/
structure PipeState where
  wsMap : List (Conn × Bool)
  perfs : List PerfJSON
deriving Repr

/-- One iteration of the speedtestHandler loop (netmon.go lines 183-206)
after a trigger is received: broadcast the request status, run
getSpeedTestInfo; on failure broadcast the fixed error status; on success
append the record to the history, marshal it, and (when marshalling
succeeds) broadcast the result.  Returns the new state, the per-connection
deliveries in program order, and the notifications handed to the fan-out in
program order. -/
def speedtestStep (env : ExecEnv) (server : Int)
    (marshal : PerfJSON → Option String) (w1 w2 : Conn → Bool)
    (st : PipeState) : PipeState × List (Conn × Result) × List Result :=
  let r1 := sendWebSocketData w1 statusReqMsg st.wsMap
  match getSpeedTestInfo env server with
  | .error _ =>
    let r2 := sendWebSocketData w2 statusErrMsg r1.1
    (⟨r2.1, st.perfs⟩, r1.2.1 ++ r2.2.1, [statusReqMsg, statusErrMsg])
  | .ok perf =>
    let perfs' := st.perfs ++ [perf]
    match marshal perf with
    | none => (⟨r1.1, perfs'⟩, r1.2.1, [statusReqMsg])
    | some s =>
      let r2 := sendWebSocketData w2 ⟨ResultType, s⟩ r1.1
      (⟨r2.1, perfs'⟩, r1.2.1 ++ r2.2.1, [statusReqMsg, ⟨ResultType, s⟩])

/-- The state after one pipeline iteration. -/
def stepState (env : ExecEnv) (server : Int)
    (marshal : PerfJSON → Option String) (w1 w2 : Conn → Bool)
    (st : PipeState) : PipeState :=
  (speedtestStep env server marshal w1 w2 st).1

/-- The per-connection deliveries of one pipeline iteration. -/
def stepDeliveries (env : ExecEnv) (server : Int)
    (marshal : PerfJSON → Option String) (w1 w2 : Conn → Bool)
    (st : PipeState) : List (Conn × Result) :=
  (speedtestStep env server marshal w1 w2 st).2.1

/-- The notifications one pipeline iteration hands to the fan-out,
in program order. -/
def stepBroadcasts (env : ExecEnv) (server : Int)
    (marshal : PerfJSON → Option String) (w1 w2 : Conn → Bool)
    (st : PipeState) : List Result :=
  (speedtestStep env server marshal w1 w2 st).2.2

/-- One trigger together with the write outcomes of the two broadcasts of
its iteration. -/
structure StepInput where
  env : ExecEnv
  w1 : Conn → Bool
  w2 : Conn → Bool

/-- The speedtestHandler loop over a finite sequence of triggers: each
trigger is processed end-to-end and the loop then accepts the next one. -/
def runSteps (server : Int) (marshal : PerfJSON → Option String) :
    List StepInput → PipeState → PipeState
  | [], st => st
  | i :: rest, st =>
    runSteps server marshal rest (speedtestStep i.env server marshal i.w1 i.w2 st).1

/-- Static capacity of a Go channel. -/
structure ChanSpec where
  cap : Nat
deriving DecidableEq, Repr

/-- The channels of a HandlerContext. -/
structure HandlerContextSpec where
  reqChan : ChanSpec
deriving Repr

/-- NewHandlerContext (netmon.go lines 87-89): reqChan is created by
make(chan bool), an unbuffered channel of capacity 0. -/
def NewHandlerContext : HandlerContextSpec := ⟨⟨0⟩⟩

/-- The messages a given connection received, in delivery order. -/
def deliveredTo (c : Conn) (ds : List (Conn × Result)) : List Result :=
  ds.filterMap (fun p => if p.1 = c then some p.2 else none)

/-- A concrete record used by the witnesses. -/
def samplePerf : PerfJSON :=
  ⟨⟨"1234", "ACME", "Springfield", "US", "us", "http://example.org",
    "example.org:8080", "0", "0", 10, 20, ""⟩, 1000, 2000, 5000000, 9000000,
    "2020-01-01T00:00:00Z", 20⟩

/-- An environment in which the measurement succeeds with samplePerf. -/
def envOk : ExecEnv := ⟨none, none, .ok samplePerf, none⟩

/-- An environment in which the tool starts but produces empty output. -/
def envEOF : ExecEnv := ⟨none, none, .eof, none⟩

/-- An environment in which the output is present but does not parse. -/
def envBad : ExecEnv := ⟨none, none, .fail "invalid character", none⟩

/-- Write outcome in which every connection write succeeds. -/
def wTrue : Conn → Bool := fun _ => true

/-- Write outcome in which only connection 1 accepts the write. -/
def wOnly1 : Conn → Bool := fun c => c == 1

/-- A concrete record encoder used by the witnesses. -/
def encP : PerfJSON → String := fun _ => "P"

/-- A trigger whose measurement succeeds and whose writes all succeed. -/
def sampleInput : StepInput := ⟨envOk, wTrue, wTrue⟩

/-- The initial pipeline state: empty registry, empty history. -/
def st0 : PipeState := ⟨[], []⟩

/-- A pipeline state with a single live client and empty history. -/
def stC : PipeState := ⟨[(1, true)], []⟩

/-- A registry with one live, one dead, and one live-but-failing entry. -/
def mapSample : List (Conn × Bool) := [(1, true), (2, false), (3, true)]

/-! ## Helper lemmas about the decimal rendering -/

lemma natDigitsAux_length_le (fuel : Nat) :
    ∀ (n : Nat) (acc : List Char), acc.length ≤ (natDigitsAux fuel n acc).length := by
  induction fuel with
  | zero => intro n acc; simp [natDigitsAux]
  | succ fuel ih =>
    intro n acc
    simp only [natDigitsAux]
    split
    · simp
    · exact le_trans (by simp) (ih (n / 10) (Nat.digitChar (n % 10) :: acc))

lemma itoaNat_ne_empty (n : Nat) : itoaNat n ≠ "" := by
  have h1 : 1 ≤ (natDigitsAux (n + 1) n []).length := by
    simp only [natDigitsAux]
    split
    · simp
    · exact le_trans (by simp) (natDigitsAux_length_le n (n / 10) _)
  intro h
  have h2 : natDigitsAux (n + 1) n [] = [] := congrArg String.data h
  rw [h2] at h1
  simp at h1

lemma itoa_nonneg_ne_empty (s : Int) (hs : -1 < s) : itoa s ≠ "" := by
  have hneg : ¬ s < 0 := by omega
  simp only [itoa, if_neg hneg]
  exact itoaNat_ne_empty s.natAbs

/-! ## Helper lemmas about the broadcast fan-out -/
lemma sendWS_dead (w : Conn → Bool) (msg : Result) (a : Conn) (rest : List (Conn × Bool)) :
    sendWebSocketData w msg ((a, false) :: rest) =
    ((sendWebSocketData w msg rest).1, (sendWebSocketData w msg rest).2.1,
      a :: (sendWebSocketData w msg rest).2.2) := rfl

lemma sendWS_ok (w : Conn → Bool) (msg : Result) (a : Conn) (rest : List (Conn × Bool))
    (hw : w a = true) :
    sendWebSocketData w msg ((a, true) :: rest) =
    ((a, true) :: (sendWebSocketData w msg rest).1,
     (a, msg) :: (sendWebSocketData w msg rest).2.1,
     (sendWebSocketData w msg rest).2.2) := by
  simp [sendWebSocketData, hw]

lemma sendWS_fail (w : Conn → Bool) (msg : Result) (a : Conn) (rest : List (Conn × Bool))
    (hw : w a = false) :
    sendWebSocketData w msg ((a, true) :: rest) =
    ((sendWebSocketData w msg rest).1, (sendWebSocketData w msg rest).2.1,
      a :: (sendWebSocketData w msg rest).2.2) := by
  simp [sendWebSocketData, hw]

lemma sendWS_mem (w : Conn → Bool) (msg : Result) :
    ∀ (m : List (Conn × Bool)) (c : Conn) (b : Bool),
      (c, b) ∈ (sendWebSocketData w msg m).1 →
      b = true ∧ (c, true) ∈ m ∧ w c = true := by
  intro m
  induction m with
  | nil => intro c b h; simp [sendWebSocketData] at h
  | cons hd rest ih =>
    obtain ⟨a, alive⟩ := hd
    intro c b h
    cases alive with
    | false =>
      rw [sendWS_dead] at h
      obtain ⟨hb, hm, hw⟩ := ih c b h
      exact ⟨hb, List.mem_cons_of_mem _ hm, hw⟩
    | true =>
      cases hw : w a with
      | false =>
        rw [sendWS_fail w msg a rest hw] at h
        obtain ⟨hb, hm, hw'⟩ := ih c b h
        exact ⟨hb, List.mem_cons_of_mem _ hm, hw'⟩
      | true =>
        rw [sendWS_ok w msg a rest hw] at h
        rcases List.mem_cons.mp h with h | h
        · injection h with h1 h2
          subst h1; subst h2
          exact ⟨rfl, List.mem_cons_self _ _, hw⟩
        · obtain ⟨hb, hm, hw'⟩ := ih c b h
          exact ⟨hb, List.mem_cons_of_mem _ hm, hw'⟩

lemma sendWS_evict_dead (w : Conn → Bool) (msg : Result) :
    ∀ (m : List (Conn × Bool)) (c : Conn),
      (c, false) ∈ m → c ∈ (sendWebSocketData w msg m).2.2 := by
  intro m
  induction m with
  | nil => intro c h; simp at h
  | cons hd rest ih =>
    obtain ⟨a, alive⟩ := hd
    intro c h
    rcases List.mem_cons.mp h with h | h
    · injection h with h1 h2
      subst h1
      cases h2.symm
      rw [sendWS_dead]
      exact List.mem_cons_self _ _
    · have hc := ih c h
      cases alive with
      | false => rw [sendWS_dead]; exact List.mem_cons_of_mem _ hc
      | true =>
        cases hw : w a with
        | false => rw [sendWS_fail w msg a rest hw]; exact List.mem_cons_of_mem _ hc
        | true => rw [sendWS_ok w msg a rest hw]; exact hc

lemma sendWS_evict_fail (w : Conn → Bool) (msg : Result) :
    ∀ (m : List (Conn × Bool)) (c : Conn),
      (c, true) ∈ m → w c = false → c ∈ (sendWebSocketData w msg m).2.2 := by
  intro m
  induction m with
  | nil => intro c h; simp at h
  | cons hd rest ih =>
    obtain ⟨a, alive⟩ := hd
    intro c h hw
    rcases List.mem_cons.mp h with h | h
    · injection h with h1 h2
      subst h1
      cases h2.symm
      rw [sendWS_fail w msg c rest hw]
      exact List.mem_cons_self _ _
    · have hc := ih c h hw
      cases alive with
      | false => rw [sendWS_dead]; exact List.mem_cons_of_mem _ hc
      | true =>
        cases hw' : w a with
        | false => rw [sendWS_fail w msg a rest hw']; exact List.mem_cons_of_mem _ hc
        | true => rw [sendWS_ok w msg a rest hw']; exact hc

lemma sendWS_evict_sub (w : Conn → Bool) (msg : Result) :
    ∀ (m : List (Conn × Bool)) (c : Conn),
      c ∈ (sendWebSocketData w msg m).2.2 → c ∈ m.map Prod.fst := by
  intro m
  induction m with
  | nil => intro c h; simp [sendWebSocketData] at h
  | cons hd rest ih =>
    obtain ⟨a, alive⟩ := hd
    intro c h
    simp only [List.map_cons, List.mem_cons]
    cases alive with
    | false =>
      rw [sendWS_dead] at h
      rcases List.mem_cons.mp h with h | h
      · exact Or.inl h
      · exact Or.inr (ih c h)
    | true =>
      cases hw : w a with
      | false =>
        rw [sendWS_fail w msg a rest hw] at h
        rcases List.mem_cons.mp h with h | h
        · exact Or.inl h
        · exact Or.inr (ih c h)
      | true =>
        rw [sendWS_ok w msg a rest hw] at h
        exact Or.inr (ih c h)

lemma sendWS_evict_nodup (w : Conn → Bool) (msg : Result) :
    ∀ (m : List (Conn × Bool)),
      (m.map Prod.fst).Nodup → (sendWebSocketData w msg m).2.2.Nodup := by
  intro m
  induction m with
  | nil => intro _; simp [sendWebSocketData]
  | cons hd rest ih =>
    obtain ⟨a, alive⟩ := hd
    intro hnd
    simp only [List.map_cons, List.nodup_cons] at hnd
    obtain ⟨ha, hnd'⟩ := hnd
    have hnotin : a ∉ (sendWebSocketData w msg rest).2.2 :=
      fun hmem => ha (sendWS_evict_sub w msg rest a hmem)
    cases alive with
    | false => rw [sendWS_dead]; exact List.nodup_cons.mpr ⟨hnotin, ih hnd'⟩
    | true =>
      cases hw : w a with
      | false => rw [sendWS_fail w msg a rest hw]
                 exact List.nodup_cons.mpr ⟨hnotin, ih hnd'⟩
      | true => rw [sendWS_ok w msg a rest hw]; exact ih hnd'

lemma sendWS_keys_sublist (w : Conn → Bool) (msg : Result) :
    ∀ (m : List (Conn × Bool)),
      ((sendWebSocketData w msg m).1.map Prod.fst).Sublist (m.map Prod.fst) := by
  intro m
  induction m with
  | nil => simp [sendWebSocketData]
  | cons hd rest ih =>
    obtain ⟨a, alive⟩ := hd
    cases alive with
    | false => rw [sendWS_dead]; exact List.Sublist.cons _ ih
    | true =>
      cases hw : w a with
      | false => rw [sendWS_fail w msg a rest hw]
                 exact List.Sublist.cons _ ih
      | true => rw [sendWS_ok w msg a rest hw]
                simp only [List.map_cons]
                exact List.Sublist.cons₂ _ ih

lemma sendWS_deliver_inv (w : Conn → Bool) (msg : Result) :
    ∀ (m : List (Conn × Bool)) (c : Conn) (x : Result),
      (c, x) ∈ (sendWebSocketData w msg m).2.1 →
      (c, true) ∈ m ∧ w c = true ∧ x = msg := by
  intro m
  induction m with
  | nil => intro c x h; simp [sendWebSocketData] at h
  | cons hd rest ih =>
    obtain ⟨a, alive⟩ := hd
    intro c x h
    cases alive with
    | false =>
      rw [sendWS_dead] at h
      obtain ⟨hm, hw, hx⟩ := ih c x h
      exact ⟨List.mem_cons_of_mem _ hm, hw, hx⟩
    | true =>
      cases hw : w a with
      | false =>
        rw [sendWS_fail w msg a rest hw] at h
        obtain ⟨hm, hw', hx⟩ := ih c x h
        exact ⟨List.mem_cons_of_mem _ hm, hw', hx⟩
      | true =>
        rw [sendWS_ok w msg a rest hw] at h
        rcases List.mem_cons.mp h with h | h
        · injection h with h1 h2
          subst h1; subst h2
          exact ⟨List.mem_cons_self _ _, hw, rfl⟩
        · obtain ⟨hm, hw', hx⟩ := ih c x h
          exact ⟨List.mem_cons_of_mem _ hm, hw', hx⟩

lemma deliveredTo_nil_of_not_mem (c : Conn) (w : Conn → Bool) (msg : Result)
    (m : List (Conn × Bool)) (hc : c ∉ m.map Prod.fst) :
    deliveredTo c (sendWebSocketData w msg m).2.1 = [] := by
  rw [deliveredTo, List.filterMap_eq_nil_iff]
  intro p hp
  obtain ⟨hm, _, _⟩ := sendWS_deliver_inv w msg m p.1 p.2 (by simpa using hp)
  have hpm : p.1 ∈ m.map Prod.fst := List.mem_map.mpr ⟨(p.1, true), hm, rfl⟩
  simp only [ite_eq_right_iff]
  intro h
  exact absurd (h ▸ hpm) hc

lemma sendWS_deliveredTo (w : Conn → Bool) (msg : Result) :
    ∀ (m : List (Conn × Bool)) (c : Conn),
      (m.map Prod.fst).Nodup → (c, true) ∈ m → w c = true →
      deliveredTo c (sendWebSocketData w msg m).2.1 = [msg] ∧
        (c, true) ∈ (sendWebSocketData w msg m).1 := by
  intro m
  induction m with
  | nil => intro c _ h; simp at h
  | cons hd rest ih =>
    obtain ⟨a, alive⟩ := hd
    intro c hnd hc hw
    simp only [List.map_cons, List.nodup_cons] at hnd
    obtain ⟨ha, hnd'⟩ := hnd
    by_cases hca : c = a
    · subst hca
      have halive : alive = true := by
        rcases List.mem_cons.mp hc with h | h
        · injection h with _ h2; exact h2.symm
        · exact absurd (List.mem_map.mpr ⟨(c, true), h, rfl⟩) ha
      subst halive
      rw [sendWS_ok w msg c rest hw]
      constructor
      · have hnil := deliveredTo_nil_of_not_mem c w msg rest ha
        simp only [deliveredTo] at hnil ⊢
        simp [List.filterMap_cons, hnil]
      · exact List.mem_cons_self _ _
    · have hc' : (c, true) ∈ rest := by
        rcases List.mem_cons.mp hc with h | h
        · exact absurd (congrArg Prod.fst h) hca
        · exact h
      obtain ⟨ihd, ihm⟩ := ih c hnd' hc' hw
      cases alive with
      | false => rw [sendWS_dead]; exact ⟨ihd, ihm⟩
      | true =>
        cases hwa : w a with
        | false => rw [sendWS_fail w msg a rest hwa]; exact ⟨ihd, ihm⟩
        | true =>
          rw [sendWS_ok w msg a rest hwa]
          refine ⟨?_, List.mem_cons_of_mem _ ihm⟩
          simp only [deliveredTo, List.filterMap_cons, if_neg (Ne.symm hca)] at ihd ⊢
          exact ihd

lemma deliveredTo_append (c : Conn) (d1 d2 : List (Conn × Result)) :
    deliveredTo c (d1 ++ d2) = deliveredTo c d1 ++ deliveredTo c d2 := by
  simp [deliveredTo, List.filterMap_append]

end Netmon

namespace Netmon

/-! ## Helper lemmas about the pipeline step -/

lemma nodup_keys_after (w : Conn → Bool) (msg : Result) (m : List (Conn × Bool))
    (hnd : (m.map Prod.fst).Nodup) :
    ((sendWebSocketData w msg m).1.map Prod.fst).Nodup :=
  (sendWS_keys_sublist w msg m).nodup hnd

lemma deliveredTo_sendWS_eq_nil (c : Conn) (w : Conn → Bool) (msg : Result)
    (m : List (Conn × Bool)) (h : ¬ ((c, true) ∈ m ∧ w c = true)) :
    deliveredTo c (sendWebSocketData w msg m).2.1 = [] := by
  rw [deliveredTo, List.filterMap_eq_nil_iff]
  intro p hp
  obtain ⟨hm, hw, _⟩ := sendWS_deliver_inv w msg m p.1 p.2 (by simpa using hp)
  simp only [ite_eq_right_iff]
  intro hpc
  exact absurd ⟨hpc ▸ hm, hpc ▸ hw⟩ h

lemma twoPass_deliveredTo_ok (w1 w2 : Conn → Bool) (msg1 msg2 : Result)
    (m : List (Conn × Bool)) (c : Conn) (hnd : (m.map Prod.fst).Nodup)
    (hc : (c, true) ∈ m) (h1 : w1 c = true) (h2 : w2 c = true) :
    deliveredTo c ((sendWebSocketData w1 msg1 m).2.1 ++
      (sendWebSocketData w2 msg2 (sendWebSocketData w1 msg1 m).1).2.1)
      = [msg1, msg2] := by
  obtain ⟨hd1, hm1⟩ := sendWS_deliveredTo w1 msg1 m c hnd hc h1
  obtain ⟨hd2, _⟩ := sendWS_deliveredTo w2 msg2 (sendWebSocketData w1 msg1 m).1 c
    (nodup_keys_after w1 msg1 m hnd) hm1 h2
  rw [deliveredTo_append, hd1, hd2]
  rfl

lemma twoPass_deliveredTo_any (w1 w2 : Conn → Bool) (msg1 msg2 : Result)
    (m : List (Conn × Bool)) (c : Conn) (hnd : (m.map Prod.fst).Nodup)
    (hne : deliveredTo c ((sendWebSocketData w1 msg1 m).2.1 ++
      (sendWebSocketData w2 msg2 (sendWebSocketData w1 msg1 m).1).2.1) ≠ []) :
    deliveredTo c ((sendWebSocketData w1 msg1 m).2.1 ++
      (sendWebSocketData w2 msg2 (sendWebSocketData w1 msg1 m).1).2.1) = [msg1]
    ∨ deliveredTo c ((sendWebSocketData w1 msg1 m).2.1 ++
      (sendWebSocketData w2 msg2 (sendWebSocketData w1 msg1 m).1).2.1)
        = [msg1, msg2] := by
  by_cases hm : (c, true) ∈ m ∧ w1 c = true
  · obtain ⟨hcm, hw1⟩ := hm
    obtain ⟨hd1, hm1⟩ := sendWS_deliveredTo w1 msg1 m c hnd hcm hw1
    by_cases hw2 : w2 c = true
    · right
      obtain ⟨hd2, _⟩ := sendWS_deliveredTo w2 msg2 (sendWebSocketData w1 msg1 m).1 c
        (nodup_keys_after w1 msg1 m hnd) hm1 hw2
      rw [deliveredTo_append, hd1, hd2]
      rfl
    · left
      have hd2 : deliveredTo c
          (sendWebSocketData w2 msg2 (sendWebSocketData w1 msg1 m).1).2.1 = [] :=
        deliveredTo_sendWS_eq_nil c w2 msg2 _ (fun hh => hw2 hh.2)
      rw [deliveredTo_append, hd1, hd2]
      rfl
  · exfalso
    apply hne
    have hd1 : deliveredTo c (sendWebSocketData w1 msg1 m).2.1 = [] :=
      deliveredTo_sendWS_eq_nil c w1 msg1 m hm
    have hnotm1 : ¬ ((c, true) ∈ (sendWebSocketData w1 msg1 m).1 ∧ w2 c = true) := by
      rintro ⟨hmem, _⟩
      obtain ⟨_, hcm, hw1⟩ := sendWS_mem w1 msg1 m c true hmem
      exact hm ⟨hcm, hw1⟩
    have hd2 : deliveredTo c
        (sendWebSocketData w2 msg2 (sendWebSocketData w1 msg1 m).1).2.1 = [] :=
      deliveredTo_sendWS_eq_nil c w2 msg2 _ hnotm1
    rw [deliveredTo_append, hd1, hd2]
    rfl

lemma statusReq_ne_statusErr : statusReqMsg ≠ statusErrMsg := by decide

lemma statusReq_ne_result (s : String) : statusReqMsg ≠ ⟨ResultType, s⟩ := by
  intro h
  have h2 : ("status" : String) = "result" := congrArg Result.type h
  exact absurd h2 (by decide)

lemma statusReq_type_ne : statusReqMsg.type ≠ ResultType := by decide

lemma statusErr_type_ne : statusErrMsg.type ≠ ResultType := by decide

lemma speedtestStep_error (env : ExecEnv) (server : Int)
    (marshal : PerfJSON → Option String) (w1 w2 : Conn → Bool) (st : PipeState)
    (e : NetErr) (h : getSpeedTestInfo env server = .error e) :
    speedtestStep env server marshal w1 w2 st =
    (⟨(sendWebSocketData w2 statusErrMsg
        (sendWebSocketData w1 statusReqMsg st.wsMap).1).1, st.perfs⟩,
     (sendWebSocketData w1 statusReqMsg st.wsMap).2.1 ++
       (sendWebSocketData w2 statusErrMsg
         (sendWebSocketData w1 statusReqMsg st.wsMap).1).2.1,
     [statusReqMsg, statusErrMsg]) := by
  simp only [speedtestStep, h]

lemma speedtestStep_ok (env : ExecEnv) (server : Int)
    (marshal : PerfJSON → Option String) (w1 w2 : Conn → Bool) (st : PipeState)
    (p : PerfJSON) (s : String)
    (h : getSpeedTestInfo env server = .ok p) (hm : marshal p = some s) :
    speedtestStep env server marshal w1 w2 st =
    (⟨(sendWebSocketData w2 ⟨ResultType, s⟩
        (sendWebSocketData w1 statusReqMsg st.wsMap).1).1, st.perfs ++ [p]⟩,
     (sendWebSocketData w1 statusReqMsg st.wsMap).2.1 ++
       (sendWebSocketData w2 ⟨ResultType, s⟩
         (sendWebSocketData w1 statusReqMsg st.wsMap).1).2.1,
     [statusReqMsg, ⟨ResultType, s⟩]) := by
  simp only [speedtestStep, h, hm]

lemma speedtestStep_noMarshal (env : ExecEnv) (server : Int)
    (marshal : PerfJSON → Option String) (w1 w2 : Conn → Bool) (st : PipeState)
    (p : PerfJSON)
    (h : getSpeedTestInfo env server = .ok p) (hm : marshal p = none) :
    speedtestStep env server marshal w1 w2 st =
    (⟨(sendWebSocketData w1 statusReqMsg st.wsMap).1, st.perfs ++ [p]⟩,
     (sendWebSocketData w1 statusReqMsg st.wsMap).2.1,
     [statusReqMsg]) := by
  simp only [speedtestStep, h, hm]

lemma initPayload_eq_encArray (enc : PerfJSON → String) (l : List PerfJSON) :
    initPayload enc l = encArray enc l := by
  cases l with
  | nil => rfl
  | cons p rest => simp [initPayload, goMarshalSlice, encArray]

lemma wsHandlerSends_total (enc : PerfJSON → String) (perfs : List PerfJSON) :
    wsHandlerSends (fun l => some (goMarshalSlice enc l)) perfs
      = [⟨InitType, encArray enc perfs⟩] := by
  cases perfs with
  | nil => rfl
  | cons p rest => simp [wsHandlerSends, wsConnectOpt, goMarshalSlice]

lemma runSteps_perfs (server : Int) (enc : PerfJSON → String) :
    ∀ (inputs : List StepInput) (ps : List PerfJSON) (st : PipeState),
      inputs.map (fun i => getSpeedTestInfo i.env server) = ps.map Except.ok →
      (runSteps server (fun q => some (enc q)) inputs st).perfs = st.perfs ++ ps := by
  intro inputs
  induction inputs with
  | nil =>
    intro ps st h
    simp only [List.map_nil] at h
    have hps : ps = [] := by
      cases ps with
      | nil => rfl
      | cons q qs => simp at h
    subst hps
    simp [runSteps]
  | cons i rest ih =>
    intro ps st h
    cases ps with
    | nil => simp at h
    | cons p ps' =>
      simp only [List.map_cons, List.cons.injEq] at h
      obtain ⟨h1, h2⟩ := h
      have hstep : (speedtestStep i.env server (fun q => some (enc q)) i.w1 i.w2 st).1.perfs
          = st.perfs ++ [p] := by
        rw [speedtestStep_ok i.env server _ i.w1 i.w2 st p (enc p) h1 rfl]
      show (runSteps server (fun q => some (enc q)) rest
          (speedtestStep i.env server (fun q => some (enc q)) i.w1 i.w2 st).1).perfs
          = st.perfs ++ p :: ps'
      rw [ih ps' _ h2, hstep, List.append_assoc]
      rfl

end Netmon

namespace Netmon

/-! ## The claims -/

/-- Claim C1: for every trigger whose measurement succeeds, the pipeline
appends exactly that one new record to the history and broadcasts a result
notification carrying that single record; after a sequence of N successful
measurements starting from the initial empty history, the history is
exactly the N records in completion order, and a client connecting
afterwards is sent an init notification whose payload is the JSON array of
exactly that sequence (speedtestHandler, netmon.go lines 179-207, and
WsHandler, lines 111-126). -/
theorem claim_C1 (server : Int) (enc : PerfJSON → String)
    (inputs : List StepInput) (ps : List PerfJSON) (m0 : List (Conn × Bool))
    (st : PipeState) (env : ExecEnv) (w1 w2 : Conn → Bool) (p : PerfJSON)
    (hruns : inputs.map (fun i => getSpeedTestInfo i.env server) = ps.map Except.ok)
    (hp : getSpeedTestInfo env server = .ok p) :
    (runSteps server (fun q => some (enc q)) inputs ⟨m0, []⟩).perfs = ps
    ∧ ps.length = inputs.length
    ∧ wsHandlerSends (fun l => some (goMarshalSlice enc l))
        (runSteps server (fun q => some (enc q)) inputs ⟨m0, []⟩).perfs
        = [⟨InitType, encArray enc ps⟩]
    ∧ (stepState env server (fun q => some (enc q)) w1 w2 st).perfs
        = st.perfs ++ [p]
    ∧ stepBroadcasts env server (fun q => some (enc q)) w1 w2 st
        = [statusReqMsg, ⟨ResultType, enc p⟩] := by
  have hps : (runSteps server (fun q => some (enc q)) inputs ⟨m0, []⟩).perfs = ps := by
    simpa using runSteps_perfs server enc inputs ps ⟨m0, []⟩ hruns
  refine ⟨hps, ?_, ?_, ?_, ?_⟩
  · simpa using (congrArg List.length hruns).symm
  · rw [hps]
    exact wsHandlerSends_total enc ps
  · rw [stepState, speedtestStep_ok env server _ w1 w2 st p (enc p) hp rfl]
  · rw [stepBroadcasts, speedtestStep_ok env server _ w1 w2 st p (enc p) hp rfl]

/-- Witness for claim C1 at one successful trigger. -/
theorem claim_C1_witness :
    ([sampleInput].map (fun i => getSpeedTestInfo i.env 7) = [samplePerf].map Except.ok)
    ∧ (getSpeedTestInfo envOk 7 = Except.ok samplePerf)
    ∧ ((runSteps 7 (fun q => some (encP q)) [sampleInput] ⟨[], []⟩).perfs = [samplePerf]
       ∧ ([samplePerf] : List PerfJSON).length = ([sampleInput] : List StepInput).length
       ∧ wsHandlerSends (fun l => some (goMarshalSlice encP l))
           (runSteps 7 (fun q => some (encP q)) [sampleInput] ⟨[], []⟩).perfs
           = [⟨InitType, encArray encP [samplePerf]⟩]
       ∧ (stepState envOk 7 (fun q => some (encP q)) wTrue wTrue st0).perfs
           = st0.perfs ++ [samplePerf]
       ∧ stepBroadcasts envOk 7 (fun q => some (encP q)) wTrue wTrue st0
           = [statusReqMsg, ⟨ResultType, encP samplePerf⟩]) :=
  ⟨rfl, rfl,
   claim_C1 7 encP [sampleInput] [samplePerf] [] st0 envOk wTrue wTrue samplePerf rfl rfl⟩

/-- Claim C2: for every trigger whose measurement fails, the pipeline
broadcasts a status notification describing the failure, leaves the history
completely unchanged, and proceeds to the next trigger (speedtestHandler,
netmon.go lines 189-195: the error branch logs, broadcasts the status, and
continues the loop). -/
theorem claim_C2 (server : Int) (marshal : PerfJSON → Option String)
    (w1 w2 : Conn → Bool) (st : PipeState) (env : ExecEnv) (e : NetErr)
    (rest : List StepInput)
    (h : getSpeedTestInfo env server = .error e) :
    (stepState env server marshal w1 w2 st).perfs = st.perfs
    ∧ stepBroadcasts env server marshal w1 w2 st = [statusReqMsg, statusErrMsg]
    ∧ runSteps server marshal (⟨env, w1, w2⟩ :: rest) st
        = runSteps server marshal rest (stepState env server marshal w1 w2 st) := by
  refine ⟨?_, ?_, rfl⟩
  · rw [stepState, speedtestStep_error env server marshal w1 w2 st e h]
  · rw [stepBroadcasts, speedtestStep_error env server marshal w1 w2 st e h]

/-- Witness for claim C2 at a NoOutput failure. -/
theorem claim_C2_witness :
    (getSpeedTestInfo envEOF 7
      = Except.error (NetErr.getSpeedError "No output provided from test."))
    ∧ ((stepState envEOF 7 (fun _ => none) wTrue wTrue st0).perfs = st0.perfs
       ∧ stepBroadcasts envEOF 7 (fun _ => none) wTrue wTrue st0
           = [statusReqMsg, statusErrMsg]
       ∧ runSteps 7 (fun _ => none) (⟨envEOF, wTrue, wTrue⟩ :: []) st0
           = runSteps 7 (fun _ => none) []
               (stepState envEOF 7 (fun _ => none) wTrue wTrue st0)) :=
  ⟨rfl, claim_C2 7 (fun _ => none) wTrue wTrue st0 envEOF
    (NetErr.getSpeedError "No output provided from test.") [] rfl⟩

/-- Claim C3: after a single call to the broadcast fan-out returns, the
registry contains no entry whose delivery write failed during that call and
no entry that was already marked dead when the call began; every such entry
was evicted during that same pass, and each entry is evicted at most once
(sendWebSocketData, netmon.go lines 156-173). -/
theorem claim_C3 (w : Conn → Bool) (msg : Result) (m : List (Conn × Bool))
    (hnd : (m.map Prod.fst).Nodup) :
    (∀ c b, (c, b) ∈ (sendWebSocketData w msg m).1 →
        b = true ∧ (c, true) ∈ m ∧ w c = true)
    ∧ (∀ c, (c, false) ∈ m → c ∈ (sendWebSocketData w msg m).2.2)
    ∧ (∀ c, (c, true) ∈ m → w c = false → c ∈ (sendWebSocketData w msg m).2.2)
    ∧ (sendWebSocketData w msg m).2.2.Nodup :=
  ⟨sendWS_mem w msg m, sendWS_evict_dead w msg m, sendWS_evict_fail w msg m,
   sendWS_evict_nodup w msg m hnd⟩

/-- Witness for claim C3 on a registry with a dead entry and a failing
write. -/
theorem claim_C3_witness :
    ((mapSample.map Prod.fst).Nodup)
    ∧ ((∀ c b, (c, b) ∈ (sendWebSocketData wOnly1 statusReqMsg mapSample).1 →
          b = true ∧ (c, true) ∈ mapSample ∧ wOnly1 c = true)
       ∧ (∀ c, (c, false) ∈ mapSample →
          c ∈ (sendWebSocketData wOnly1 statusReqMsg mapSample).2.2)
       ∧ (∀ c, (c, true) ∈ mapSample → wOnly1 c = false →
          c ∈ (sendWebSocketData wOnly1 statusReqMsg mapSample).2.2)
       ∧ (sendWebSocketData wOnly1 statusReqMsg mapSample).2.2.Nodup) :=
  ⟨by decide, claim_C3 wOnly1 statusReqMsg mapSample (by decide)⟩

/-- Claim C4: for every processed trigger exactly one request status
notification is broadcast, first; on success the result notification
follows it; a client that is live at trigger time and whose writes succeed
observes exactly the broadcast sequence, status before result; and any
client that observes anything observes the status first, so no client ever
sees a result without the preceding status (speedtestHandler, netmon.go
lines 183-206). -/
theorem claim_C4 (server : Int) (enc : PerfJSON → String) (env : ExecEnv)
    (w1 w2 : Conn → Bool) (st : PipeState) (c : Conn)
    (hnd : (st.wsMap.map Prod.fst).Nodup)
    (hc : (c, true) ∈ st.wsMap) (h1 : w1 c = true) (h2 : w2 c = true) :
    (stepBroadcasts env server (fun q => some (enc q)) w1 w2 st).head?
        = some statusReqMsg
    ∧ statusReqMsg ∉ (stepBroadcasts env server (fun q => some (enc q)) w1 w2 st).tail
    ∧ (∀ r ∈ stepBroadcasts env server (fun q => some (enc q)) w1 w2 st,
        r.type = ResultType →
        stepBroadcasts env server (fun q => some (enc q)) w1 w2 st = [statusReqMsg, r])
    ∧ deliveredTo c (stepDeliveries env server (fun q => some (enc q)) w1 w2 st)
        = stepBroadcasts env server (fun q => some (enc q)) w1 w2 st
    ∧ (∀ c', deliveredTo c'
          (stepDeliveries env server (fun q => some (enc q)) w1 w2 st) ≠ [] →
        deliveredTo c' (stepDeliveries env server (fun q => some (enc q)) w1 w2 st)
            = [statusReqMsg]
        ∨ deliveredTo c' (stepDeliveries env server (fun q => some (enc q)) w1 w2 st)
            = stepBroadcasts env server (fun q => some (enc q)) w1 w2 st) := by
  rcases hg : getSpeedTestInfo env server with e | p
  · have hb : stepBroadcasts env server (fun q => some (enc q)) w1 w2 st
        = [statusReqMsg, statusErrMsg] := by
      rw [stepBroadcasts, speedtestStep_error env server _ w1 w2 st e hg]
    have hd : stepDeliveries env server (fun q => some (enc q)) w1 w2 st
        = (sendWebSocketData w1 statusReqMsg st.wsMap).2.1 ++
          (sendWebSocketData w2 statusErrMsg
            (sendWebSocketData w1 statusReqMsg st.wsMap).1).2.1 := by
      rw [stepDeliveries, speedtestStep_error env server _ w1 w2 st e hg]
    refine ⟨by rw [hb]; rfl, ?_, ?_, ?_, ?_⟩
    · rw [hb]
      simp only [List.tail_cons, List.mem_singleton]
      exact statusReq_ne_statusErr
    · intro r hr hrt
      rw [hb] at hr
      rcases List.mem_cons.mp hr with hh | hh
      · subst hh
        exact absurd hrt statusReq_type_ne
      · have hh2 := List.mem_singleton.mp hh
        subst hh2
        exact absurd hrt statusErr_type_ne
    · rw [hb, hd]
      exact twoPass_deliveredTo_ok w1 w2 statusReqMsg statusErrMsg st.wsMap c hnd hc h1 h2
    · intro c' hne
      rw [hd] at hne ⊢
      rw [hb]
      exact twoPass_deliveredTo_any w1 w2 statusReqMsg statusErrMsg st.wsMap c' hnd hne
  · have hb : stepBroadcasts env server (fun q => some (enc q)) w1 w2 st
        = [statusReqMsg, ⟨ResultType, enc p⟩] := by
      rw [stepBroadcasts, speedtestStep_ok env server _ w1 w2 st p (enc p) hg rfl]
    have hd : stepDeliveries env server (fun q => some (enc q)) w1 w2 st
        = (sendWebSocketData w1 statusReqMsg st.wsMap).2.1 ++
          (sendWebSocketData w2 ⟨ResultType, enc p⟩
            (sendWebSocketData w1 statusReqMsg st.wsMap).1).2.1 := by
      rw [stepDeliveries, speedtestStep_ok env server _ w1 w2 st p (enc p) hg rfl]
    refine ⟨by rw [hb]; rfl, ?_, ?_, ?_, ?_⟩
    · rw [hb]
      simp only [List.tail_cons, List.mem_singleton]
      exact statusReq_ne_result (enc p)
    · intro r hr hrt
      rw [hb] at hr ⊢
      rcases List.mem_cons.mp hr with hh | hh
      · subst hh
        exact absurd hrt statusReq_type_ne
      · have hh2 := List.mem_singleton.mp hh
        subst hh2
        rfl
    · rw [hb, hd]
      exact twoPass_deliveredTo_ok w1 w2 statusReqMsg ⟨ResultType, enc p⟩ st.wsMap c hnd hc h1 h2
    · intro c' hne
      rw [hd] at hne ⊢
      rw [hb]
      exact twoPass_deliveredTo_any w1 w2 statusReqMsg ⟨ResultType, enc p⟩ st.wsMap c' hnd hne

/-- Witness for claim C4 with one live client and a successful
measurement. -/
theorem claim_C4_witness :
    ((stC.wsMap.map Prod.fst).Nodup)
    ∧ ((1, true) ∈ stC.wsMap)
    ∧ (wTrue 1 = true)
    ∧ ((stepBroadcasts envOk 7 (fun q => some (encP q)) wTrue wTrue stC).head?
          = some statusReqMsg
       ∧ statusReqMsg ∉ (stepBroadcasts envOk 7 (fun q => some (encP q)) wTrue wTrue stC).tail
       ∧ (∀ r ∈ stepBroadcasts envOk 7 (fun q => some (encP q)) wTrue wTrue stC,
            r.type = ResultType →
            stepBroadcasts envOk 7 (fun q => some (encP q)) wTrue wTrue stC
              = [statusReqMsg, r])
       ∧ deliveredTo 1 (stepDeliveries envOk 7 (fun q => some (encP q)) wTrue wTrue stC)
           = stepBroadcasts envOk 7 (fun q => some (encP q)) wTrue wTrue stC
       ∧ (∀ c', deliveredTo c'
              (stepDeliveries envOk 7 (fun q => some (encP q)) wTrue wTrue stC) ≠ [] →
            deliveredTo c' (stepDeliveries envOk 7 (fun q => some (encP q)) wTrue wTrue stC)
                = [statusReqMsg]
            ∨ deliveredTo c' (stepDeliveries envOk 7 (fun q => some (encP q)) wTrue wTrue stC)
                = stepBroadcasts envOk 7 (fun q => some (encP q)) wTrue wTrue stC)) :=
  ⟨by decide, by decide, rfl,
   claim_C4 7 encP envOk wTrue wTrue stC 1 (by decide) (by decide) rfl rfl⟩

/-- Claim C5: a newly connected client is first sent an init notification
whose payload is the full current history; when the history is empty the
payload is the literal empty JSON array, never null or absent (WsHandler,
netmon.go lines 111-134). -/
theorem claim_C5 (enc : PerfJSON → String)
    (marshalList : List PerfJSON → Option String) (perfs : List PerfJSON) :
    wsHandlerSends marshalList [] = [⟨InitType, "[]"⟩]
    ∧ initPayload enc [] = "[]"
    ∧ ("[]" : String) ≠ "null"
    ∧ wsHandlerSends (fun l => some (goMarshalSlice enc l)) perfs
        = [⟨InitType, encArray enc perfs⟩] :=
  ⟨rfl, rfl, by decide, wsHandlerSends_total enc perfs⟩

/-- Claim C6 as stated is refuted: the trigger channel made by
NewHandlerContext (netmon.go line 88, make of chan bool) is unbuffered, so
its capacity is not at least 1. -/
theorem claim_C6_cex : ¬ (1 ≤ NewHandlerContext.reqChan.cap) := by decide

/-- Claim C6, amended: the trigger channel made by NewHandlerContext has
capacity 0 (unbuffered); a sender rendezvouses with the pipeline, so sends
from the periodic trigger can block for the duration of an in-flight
measurement, and no signal is ever queued beyond the blocked senders. -/
theorem claim_C6 : NewHandlerContext.reqChan.cap = 0 := rfl

/-- Claim C7: when the external tool starts but produces empty output (the
decoder immediately reaches end of file), getSpeedTestInfo returns the
distinct GetSpeedError with message No output provided from test., which is
different from the generic decode error returned for output that is present
but does not parse (netmon.go lines 59-67). -/
theorem claim_C7 (server : Int) (env envP : ExecEnv) (e : String)
    (h1 : env.pipeErr = none) (h2 : env.startErr = none)
    (h3 : env.dec = DecOutcome.eof)
    (g1 : envP.pipeErr = none) (g2 : envP.startErr = none)
    (g3 : envP.dec = DecOutcome.fail e) :
    getSpeedTestInfo env server
        = Except.error (NetErr.getSpeedError "No output provided from test.")
    ∧ getSpeedTestInfo envP server = Except.error (NetErr.goErr e)
    ∧ (∀ s, NetErr.getSpeedError "No output provided from test." ≠ NetErr.goErr s) := by
  refine ⟨?_, ?_, fun s hcontra => NetErr.noConfusion hcontra⟩
  · simp [getSpeedTestInfo, h1, h2, h3]
  · simp [getSpeedTestInfo, g1, g2, g3]

/-- Witness for claim C7 on an empty-output environment and a bad-output
environment. -/
theorem claim_C7_witness :
    (envEOF.pipeErr = none) ∧ (envEOF.startErr = none)
    ∧ (envEOF.dec = DecOutcome.eof)
    ∧ (envBad.pipeErr = none) ∧ (envBad.startErr = none)
    ∧ (envBad.dec = DecOutcome.fail "invalid character")
    ∧ (getSpeedTestInfo envEOF 7
        = Except.error (NetErr.getSpeedError "No output provided from test.")
       ∧ getSpeedTestInfo envBad 7
           = Except.error (NetErr.goErr "invalid character")
       ∧ (∀ s, NetErr.getSpeedError "No output provided from test."
             ≠ NetErr.goErr s)) :=
  ⟨rfl, rfl, rfl, rfl, rfl, rfl,
   claim_C7 7 envEOF envBad "invalid character" rfl rfl rfl rfl rfl rfl⟩

/-- Claim C8: whenever a measurement fails, the pipeline broadcasts the
fixed status message Error executing SpeedTest. regardless of the
underlying error value (so clients never see raw internal error text), and
every live client whose writes succeed receives exactly that status
(speedtestHandler, netmon.go lines 190-194). -/
theorem claim_C8 (server : Int) (marshal : PerfJSON → Option String)
    (w1 w2 : Conn → Bool) (st : PipeState) (env : ExecEnv) (e : NetErr)
    (c : Conn)
    (h : getSpeedTestInfo env server = .error e)
    (hnd : (st.wsMap.map Prod.fst).Nodup)
    (hc : (c, true) ∈ st.wsMap) (h1 : w1 c = true) (h2 : w2 c = true) :
    stepBroadcasts env server marshal w1 w2 st = [statusReqMsg, statusErrMsg]
    ∧ statusErrMsg = ⟨StatusType, "Error executing SpeedTest."⟩
    ∧ deliveredTo c (stepDeliveries env server marshal w1 w2 st)
        = [statusReqMsg, statusErrMsg] := by
  have hd : stepDeliveries env server marshal w1 w2 st
      = (sendWebSocketData w1 statusReqMsg st.wsMap).2.1 ++
        (sendWebSocketData w2 statusErrMsg
          (sendWebSocketData w1 statusReqMsg st.wsMap).1).2.1 := by
    rw [stepDeliveries, speedtestStep_error env server marshal w1 w2 st e h]
  refine ⟨?_, rfl, ?_⟩
  · rw [stepBroadcasts, speedtestStep_error env server marshal w1 w2 st e h]
  · rw [hd]
    exact twoPass_deliveredTo_ok w1 w2 statusReqMsg statusErrMsg st.wsMap c hnd hc h1 h2

/-- Witness for claim C8 at a decode failure with one live client. -/
theorem claim_C8_witness :
    (getSpeedTestInfo envBad 7 = Except.error (NetErr.goErr "invalid character"))
    ∧ ((stC.wsMap.map Prod.fst).Nodup)
    ∧ ((1, true) ∈ stC.wsMap)
    ∧ (stepBroadcasts envBad 7 (fun _ => none) wTrue wTrue stC
          = [statusReqMsg, statusErrMsg]
       ∧ statusErrMsg = ⟨StatusType, "Error executing SpeedTest."⟩
       ∧ deliveredTo 1 (stepDeliveries envBad 7 (fun _ => none) wTrue wTrue stC)
           = [statusReqMsg, statusErrMsg]) :=
  ⟨rfl, by decide, by decide,
   claim_C8 7 (fun _ => none) wTrue wTrue stC envBad (NetErr.goErr "invalid character")
     1 rfl (by decide) (by decide) rfl rfl⟩

/-- Claim C9: if a successfully measured record fails to serialize for the
result broadcast, the record has nevertheless already been appended to the
history before the serialization attempt, the result broadcast is skipped,
and a client connecting afterwards receives an init payload carrying a
record that no result notification ever announced (speedtestHandler,
netmon.go lines 196-206: the append at line 197 precedes the marshal at
line 199, whose error branch continues the loop). -/
theorem claim_C9 (server : Int) (enc : PerfJSON → String)
    (marshal : PerfJSON → Option String) (w1 w2 : Conn → Bool)
    (st : PipeState) (env : ExecEnv) (p : PerfJSON)
    (hok : getSpeedTestInfo env server = .ok p) (hm : marshal p = none) :
    (stepState env server marshal w1 w2 st).perfs = st.perfs ++ [p]
    ∧ (stepState env server marshal w1 w2 st).perfs.length = st.perfs.length + 1
    ∧ stepBroadcasts env server marshal w1 w2 st = [statusReqMsg]
    ∧ (∀ r ∈ stepBroadcasts env server marshal w1 w2 st, r.type ≠ ResultType)
    ∧ wsHandlerSends (fun l => some (goMarshalSlice enc l))
        (stepState env server marshal w1 w2 st).perfs
        = [⟨InitType, encArray enc (st.perfs ++ [p])⟩] := by
  have hst : (stepState env server marshal w1 w2 st).perfs = st.perfs ++ [p] := by
    rw [stepState, speedtestStep_noMarshal env server marshal w1 w2 st p hok hm]
  have hb : stepBroadcasts env server marshal w1 w2 st = [statusReqMsg] := by
    rw [stepBroadcasts, speedtestStep_noMarshal env server marshal w1 w2 st p hok hm]
  refine ⟨hst, ?_, hb, ?_, ?_⟩
  · rw [hst]
    simp
  · intro r hr
    rw [hb] at hr
    have hh := List.mem_singleton.mp hr
    subst hh
    exact statusReq_type_ne
  · rw [hst]
    exact wsHandlerSends_total enc (st.perfs ++ [p])

/-- Witness for claim C9 with a failing marshaller. -/
theorem claim_C9_witness :
    (getSpeedTestInfo envOk 7 = Except.ok samplePerf)
    ∧ ((fun _ => (none : Option String)) samplePerf = none)
    ∧ ((stepState envOk 7 (fun _ => none) wTrue wTrue st0).perfs
          = st0.perfs ++ [samplePerf]
       ∧ (stepState envOk 7 (fun _ => none) wTrue wTrue st0).perfs.length
           = st0.perfs.length + 1
       ∧ stepBroadcasts envOk 7 (fun _ => none) wTrue wTrue st0 = [statusReqMsg]
       ∧ (∀ r ∈ stepBroadcasts envOk 7 (fun _ => none) wTrue wTrue st0,
            r.type ≠ ResultType)
       ∧ wsHandlerSends (fun l => some (goMarshalSlice encP l))
           (stepState envOk 7 (fun _ => none) wTrue wTrue st0).perfs
           = [⟨InitType, encArray encP (st0.perfs ++ [samplePerf])⟩]) :=
  ⟨rfl, rfl, claim_C9 7 encP (fun _ => none) wTrue wTrue st0 envOk samplePerf rfl rfl⟩

/-- Claim C10: every negative server value, not only the sentinel -1, makes
getSpeedTestInfo invoke the tool without a server argument, and every value
greater than -1, including 0, makes it pass the server flag followed by the
decimal rendering of that value (netmon.go lines 40-54). -/
theorem claim_C10 (s : Int) :
    (s ≤ -1 → speedtestArgv s = ["speedtest-cli", "--json"])
    ∧ (-1 < s → speedtestArgv s = ["speedtest-cli", "--json", "--server", itoa s]) := by
  constructor
  · intro h
    have hn : ¬ s > -1 := by omega
    simp [speedtestArgv, speedtestServerID, hn]
  · intro h
    have hne := itoa_nonneg_ne_empty s h
    simp [speedtestArgv, speedtestServerID, h, hne]

/-- Witness for claim C10 at -5 and at 0. -/
theorem claim_C10_witness :
    ((-5 : Int) ≤ -1 ∧ speedtestArgv (-5) = ["speedtest-cli", "--json"])
    ∧ ((-1 : Int) < 0
       ∧ speedtestArgv 0 = ["speedtest-cli", "--json", "--server", itoa 0]) :=
  ⟨⟨by decide, (claim_C10 (-5)).1 (by decide)⟩,
   ⟨by decide, (claim_C10 0).2 (by decide)⟩⟩

end Netmon
